import Mathlib

/-!
Verification of the log-streaming core of the `sam logs` command.

The CLI driver (`do_cli` in samcli/commands/logs/command.py) is embedded
directly from the source.  The streaming core (StreamMultiplexer,
SourcePuller, ResourcePhysicalIdResolver, puller_factory, parse_time and
the validation front end) is not part of the provided sources, so those
operations are modelled from the specification; each such definition
carries a doc comment starting with "Modelled from the spec:".
-/

namespace SamLogs

/-- A log event as in the spec data model: source identifier, millisecond
timestamp, message payload and a de-duplication key. -/
structure LogEvent where
  sourceId : String
  timestamp : Nat
  message : String
  dedupKey : String
deriving DecidableEq, Repr

/-- The ordering key type: timestamp, then de-dup key, then source
identifier, compared lexicographically. -/
abbrev OrderKey := Lex (Nat × Lex (String × String))

/-- Ordering key of an event: (timestamp, de-dup key, source id). -/
def ordKey (e : LogEvent) : OrderKey :=
  toLex (e.timestamp, toLex (e.dedupKey, e.sourceId))

/-- Boolean comparison used by the merge: ordering keys compared
lexicographically. -/
def keyLE (a b : LogEvent) : Bool :=
  decide (ordKey a ≤ ordKey b)

/-- A per-source sequence is internally sorted by ordering key. -/
abbrev SortedByKey (l : List LogEvent) : Prop :=
  List.Pairwise (fun a b => ordKey a ≤ ordKey b) l

/-- Modelled from the spec: the stable k-way merge shared by the window
and tail modes of the StreamMultiplexer (the multiplexer itself is not
under src/).  Per-source sequences are merged pairwise by the ordering
key (timestamp, de-dup key, source id). -/
def kMerge (sources : List (List LogEvent)) : List LogEvent :=
  sources.foldr (fun l acc => List.merge l acc keyLE) []

/-- Modelled from the spec: `LoadWindow` / `puller.load_time_period` (the
ObservabilityCombinedPuller is not under src/): every source is fetched
over the window and the per-source results are k-way merged into one
finite output sequence. The argument is the list of per-source fetch
results. -/
def load_time_period (fetched : List (List LogEvent)) : List LogEvent :=
  kMerge fetched

/-- Modelled from the spec: `SourcePuller.Poll` (not under src/): a single
fetch of events newer than the cursor.  Events whose ordering key is at or
below the cursor are dropped; the cursor advances to the largest emitted
ordering key and is unchanged when nothing new arrived. -/
def poll (cursor : OrderKey) (backend : List LogEvent) :
    List LogEvent × OrderKey :=
  let fresh := backend.filter (fun e => decide (cursor < ordKey e))
  (fresh, fresh.foldl (fun acc e => max acc (ordKey e)) cursor)

/-- Modelled from the spec: the repeated `Poll` rounds of tail mode on a
single source: each round polls the backend batch of that round with the
cursor returned by the previous round. -/
def pollRounds (cursor : OrderKey) :
    List (List LogEvent) → List (List LogEvent) × OrderKey
  | [] => ([], cursor)
  | b :: bs =>
    let out := poll cursor b
    let rest := pollRounds out.2 bs
    (out.1 :: rest.1, rest.2)

/-- A resolved resource record: logical name, physical identifier and
whether its type is supported for log pulling. -/
structure ResourceInformation where
  logicalName : String
  physicalId : String
  supported : Bool
deriving DecidableEq, Repr

/-- Modelled from the spec:
`ResourcePhysicalIdResolver.get_resource_information` (logs_context, not
under src/): when logical names are supplied each is resolved individually
(names with no counterpart are skipped); when no names are supplied, all
supported stack resources are auto-discovered exactly when the fetch-all
flag is set, and no stack resource is used otherwise. -/
def get_resource_information (stackResources : List ResourceInformation)
    (names : List String) (fetch_all : Bool) : List ResourceInformation :=
  if !names.isEmpty then
    stackResources.filter (fun r => names.contains r.logicalName)
  else if fetch_all then
    stackResources.filter (fun r => r.supported)
  else []

/-- A physical source handed to puller construction: either a resolved
stack resource or an explicitly given raw CloudWatch log group. -/
inductive PullSource where
  | resource (r : ResourceInformation)
  | rawLogGroup (g : String)
deriving DecidableEq, Repr

/-- Modelled from the spec: `generate_puller` (puller_factory, not under
src/) constructs one puller per resolved resource plus one per explicitly
given raw CloudWatch log group, merged verbatim. -/
def puller_sources (resources : List ResourceInformation)
    (cw_log_groups : List String) : List PullSource :=
  resources.map PullSource.resource ++ cw_log_groups.map PullSource.rawLogGroup

/-- Reads a decimal digit string as a timestamp, none when a non-digit
occurs. -/
def digitsToNat (cs : List Char) (acc : Nat) : Option Nat :=
  match cs with
  | [] => some acc
  | c :: rest =>
    if c.isDigit then digitsToNat rest (acc * 10 + (c.toNat - 48)) else none

/-- Modelled from the spec: `parse_time` (logs_context, not under src/):
none for an absent or unparsable time string, otherwise the parsed
timestamp. -/
def parse_time (time_str : Option String) : Option Nat :=
  time_str.bind fun s => if s.data.isEmpty then none else digitsToNat s.data 0

/-- Modelled from the spec: the output rendering mode selector of the
OutputSink (OutputOption in samcli.lib.observability.util, not under
src/): plain text or structured. -/
inductive OutputOption where
  | text
  | json
deriving DecidableEq, Repr

/-- Modelled from the spec: enum lookup OutputOption(s); none when the
string names no rendering mode. -/
def OutputOption.ofString (s : String) : Option OutputOption :=
  if s = "text" then some OutputOption.text
  else if s = "json" then some OutputOption.json
  else none

/-- Python truthiness of an optional string: None and the empty string are
falsy. -/
def pyTruthyStr : Option String → Bool
  | none => false
  | some s => !s.isEmpty

/-- The call `do_cli` makes on the constructed puller: unbounded tail from
a start time, or a bounded load over a start-to-end window. -/
inductive PullerAction where
  | tail (start : Option Nat) (filter : Option String)
  | loadTimePeriod (start : Option Nat) (stop : Nat) (filter : Option String)
deriving DecidableEq, Repr

/-- The filter pattern carried by the puller call. -/
def PullerAction.filterOf : PullerAction → Option String
  | PullerAction.tail _ f => f
  | PullerAction.loadTimePeriod _ _ f => f

/-- The observable outcome of one `do_cli` invocation. -/
structure DoCliResult where
  hintPrinted : Bool
  sanitized_start_time : Option Nat
  sanitized_end_time : Nat
  fetch_all_when_no_resource_name_given : Bool
  resolvedResources : List ResourceInformation
  pullerSources : List PullSource
  pullerFilter : Option String
  pullerOutput : Option OutputOption
  pullerIncludeTracing : Bool
  action : PullerAction
deriving DecidableEq, Repr

/-- Embedding of `do_cli` (samcli/commands/logs/command.py): the hint is
printed when at most one name is given and the name list is non-empty; the
start time is parsed as given, the end time falls back to the current
wall-clock time; auto-discovery is enabled exactly when no raw CloudWatch
log group is given; the puller is built from the resolved resources, the
raw log groups, the unmodified filter pattern and the output option
(plain text when no selector is supplied); tailing selects the unbounded
tail call, otherwise the bounded load over the window. `stackResources`
stands for the backing resource set of the stack that the boto providers
would enumerate, and `now` for `datetime.utcnow()`. -/
def do_cli (names : List String) (stackResources : List ResourceInformation)
    (filter_pattern : Option String) (tailing include_tracing : Bool)
    (start_time end_time : Option String) (cw_log_groups : List String)
    (output : Option String) (now : Nat) : DoCliResult :=
  let hint := !names.isEmpty && decide (names.length ≤ 1)
  let sanitized_start := parse_time start_time
  let sanitized_end := (parse_time end_time).getD now
  let fetch_all := cw_log_groups.isEmpty
  let resources := get_resource_information stackResources names fetch_all
  let srcs := puller_sources resources cw_log_groups
  let outOpt := if pyTruthyStr output then OutputOption.ofString (output.getD "")
                else some OutputOption.text
  let act := if tailing then PullerAction.tail sanitized_start filter_pattern
             else PullerAction.loadTimePeriod sanitized_start sanitized_end filter_pattern
  ⟨hint, sanitized_start, sanitized_end, fetch_all, resources, srcs,
    filter_pattern, outOpt, include_tracing, act⟩

/-- A run configuration as far as pre-flight validation is concerned: for
each logical source resource the destination resources it is linked to,
and whether the project uses indirection that prevents static
resolution. -/
structure RunConfig where
  resourceLinks : List (String × List String)
  usesUnresolvableIndirection : Bool
deriving DecidableEq, Repr

/-- Modelled from the spec: pre-flight validation (not under src/): a
configuration is structurally invalid when one logical source resource is
linked to more than one destination resource, or when indirection prevents
static resolution. -/
def validateConfig (c : RunConfig) : Bool :=
  c.resourceLinks.all (fun p => decide (p.2.length ≤ 1)) &&
    !c.usesUnresolvableIndirection

/-- Modelled from the spec: the overall run: pre-flight validation happens
before any puller starts; an invalid configuration exits with code 1 and
emits no output events, a valid one merges the fetched events and exits
0. -/
def runPipeline (c : RunConfig) (fetched : List (List LogEvent)) :
    Nat × List LogEvent :=
  if validateConfig c then (0, load_time_period fetched) else (1, [])

/-- Modelled from the spec: filter application inside a SourcePuller (not
under src/): an absent or empty pattern means no filtering; a non-empty
pattern is an uninterpreted substring condition pushed to the backend. -/
def matchesFilter (pattern : Option String) (message : String) : Bool :=
  match pattern with
  | none => true
  | some p =>
    p.isEmpty ||
      (List.range (message.length + 1)).any
        (fun i => decide ((message.drop i).take p.length = p))

/-! ## Theorems -/

theorem keyLE_trans (a b c : LogEvent) (hab : keyLE a b) (hbc : keyLE b c) :
    keyLE a c := by
  simp only [keyLE, decide_eq_true_eq] at *
  exact le_trans hab hbc

theorem keyLE_total (a b : LogEvent) : keyLE a b || keyLE b a := by
  simp only [keyLE]
  rcases le_total (ordKey a) (ordKey b) with h | h <;> simp [h]

theorem pairwise_keyLE_iff (l : List LogEvent) :
    List.Pairwise (fun a b => keyLE a b = true) l ↔ SortedByKey l := by
  constructor
  · intro h
    exact h.imp (fun hab => by simpa [keyLE, decide_eq_true_eq] using hab)
  · intro h
    exact h.imp (fun hab => by simpa [keyLE, decide_eq_true_eq] using hab)

theorem kMerge_sorted (sources : List (List LogEvent))
    (h : ∀ l ∈ sources, SortedByKey l) : SortedByKey (kMerge sources) := by
  induction sources with
  | nil => simp [kMerge, SortedByKey]
  | cons s ss ih =>
    have hs : SortedByKey s := h s (List.mem_cons_self s ss)
    have hss : SortedByKey (kMerge ss) :=
      ih (fun l hl => h l (List.mem_cons_of_mem s hl))
    have := List.sorted_merge keyLE_trans keyLE_total s (kMerge ss)
      ((pairwise_keyLE_iff s).mpr hs) ((pairwise_keyLE_iff (kMerge ss)).mpr hss)
    exact (pairwise_keyLE_iff _).mp this

theorem kMerge_perm (sources : List (List LogEvent)) :
    (kMerge sources).Perm sources.flatten := by
  induction sources with
  | nil => simp [kMerge]
  | cons s ss ih =>
    have h1 : (List.merge s (kMerge ss) keyLE).Perm (s ++ kMerge ss) :=
      List.merge_perm_append keyLE
    have h2 : (s ++ kMerge ss).Perm (s ++ ss.flatten) := ih.append_left s
    simpa [kMerge] using h1.trans h2

/-- Claim C1: for every set of per-source event sequences, each
individually sorted by ordering key (timestamp, de-dup key), the
multiplexer merged output is globally sorted by ordering key and is a
permutation of the inputs; ties on equal timestamps are broken
deterministically by de-dup key and then by source identifier (the
ordering key compares exactly those fields lexicographically), and the
merge is a pure function of its inputs, so repeated runs over the same
inputs produce identical ordering. -/
theorem merge_ordering (sources : List (List LogEvent))
    (h : ∀ l ∈ sources, SortedByKey l) :
    SortedByKey (kMerge sources) ∧ (kMerge sources).Perm sources.flatten :=
  ⟨kMerge_sorted sources h, kMerge_perm sources⟩

/-- Witness for C1 at a concrete two-source input (Scenario 3 shape). -/
theorem merge_ordering_witness :
    SortedByKey (kMerge [[⟨"s1", 1, "a", "k1"⟩, ⟨"s1", 3, "b", "k2"⟩],
      [⟨"s2", 2, "c", "k3"⟩, ⟨"s2", 3, "d", "k9"⟩]]) ∧
    (kMerge [[⟨"s1", 1, "a", "k1"⟩, ⟨"s1", 3, "b", "k2"⟩],
      [⟨"s2", 2, "c", "k3"⟩, ⟨"s2", 3, "d", "k9"⟩]]).Perm
      ([[⟨"s1", 1, "a", "k1"⟩, ⟨"s1", 3, "b", "k2"⟩],
        [⟨"s2", 2, "c", "k3"⟩, ⟨"s2", 3, "d", "k9"⟩]] :
          List (List LogEvent)).flatten :=
  merge_ordering _ (by decide)

/-- Claim C2: for every successful `LoadWindow` call the emitted sequence
is a permutation of the union of the per-source fetched events, hence every
fetched event is emitted exactly once (no loss, no duplication), which
gives set equality on de-dup keys. -/
theorem load_time_period_no_loss_no_dup (fetched : List (List LogEvent)) :
    (load_time_period fetched).Perm fetched.flatten ∧
    ∀ e : LogEvent, (load_time_period fetched).count e = fetched.flatten.count e :=
  ⟨kMerge_perm fetched, fun e => (kMerge_perm fetched).count_eq e⟩

theorem poll_mem_gt (c : OrderKey) (b : List LogEvent) :
    ∀ e ∈ (poll c b).1, c < ordKey e := by
  intro e he
  simp only [poll, List.mem_filter, decide_eq_true_eq] at he
  exact he.2

theorem le_foldl_max (l : List LogEvent) (c : OrderKey) :
    c ≤ l.foldl (fun acc e => max acc (ordKey e)) c := by
  induction l generalizing c with
  | nil => exact le_refl c
  | cons x xs ih =>
    exact le_trans (le_max_left c (ordKey x)) (ih (max c (ordKey x)))

theorem le_poll_cursor (c : OrderKey) (b : List LogEvent) :
    c ≤ (poll c b).2 :=
  le_foldl_max _ c

theorem le_pollRounds_cursor (c : OrderKey) (bs : List (List LogEvent)) :
    c ≤ (pollRounds c bs).2 := by
  induction bs generalizing c with
  | nil => exact le_refl c
  | cons b bs ih =>
    exact le_trans (le_poll_cursor c b) (ih (poll c b).2)

theorem pollRounds_mem_gt (c : OrderKey) (bs : List (List LogEvent)) :
    ∀ out ∈ (pollRounds c bs).1, ∀ e ∈ out, c < ordKey e := by
  induction bs generalizing c with
  | nil => intro out hout; simp [pollRounds] at hout
  | cons b bs ih =>
    intro out hout e he
    simp only [pollRounds, List.mem_cons] at hout
    rcases hout with rfl | hout
    · exact poll_mem_gt c b e he
    · exact lt_of_le_of_lt (le_poll_cursor c b) (ih (poll c b).2 out hout e he)

/-- Claim C3: for every sequence of `Poll` calls on a single source, every
event emitted in any round has ordering key strictly above the cursor the
sequence started from, and the cursor never moves backwards; hence no
event with ordering key at or below the last returned cursor is ever
re-emitted by the following rounds (which are themselves a `pollRounds`
run from that cursor).  Moreover a single `Poll` drops any backend event
already covered by the cursor. -/
theorem cursor_monotonicity (c : OrderKey) (batches : List (List LogEvent)) :
    (∀ out ∈ (pollRounds c batches).1, ∀ e ∈ out, c < ordKey e) ∧
    c ≤ (pollRounds c batches).2 ∧
    (∀ backend : List LogEvent, ∀ e ∈ backend,
      ordKey e ≤ c → e ∉ (poll c backend).1) := by
  refine ⟨pollRounds_mem_gt c batches, le_pollRounds_cursor c batches, ?_⟩
  intro backend e _ hle hmem
  exact absurd (poll_mem_gt c backend e hmem) (not_lt.mpr hle)

/-- Witness for C3 (Scenario 4 shape): with the cursor at the key of the
t=6 event, a backend answer containing the t=6 duplicate and a new t=7
event never re-emits the t=6 event. -/
theorem cursor_monotonicity_witness :
    (⟨"s1", 6, "m", "k6"⟩ : LogEvent) ∉
      (poll (ordKey ⟨"s1", 6, "m", "k6"⟩)
        [⟨"s1", 6, "m", "k6"⟩, ⟨"s1", 7, "m", "k7"⟩]).1 :=
  (cursor_monotonicity (ordKey ⟨"s1", 6, "m", "k6"⟩) []).2.2
    [⟨"s1", 6, "m", "k6"⟩, ⟨"s1", 7, "m", "k7"⟩]
    ⟨"s1", 6, "m", "k6"⟩ (by decide) (le_refl _)

/-- Claim C4: auto-discovery of stack resources is enabled exactly when no
raw CloudWatch log group is given; when raw log groups are given, only the
explicitly named resources, if any, plus the raw log groups are pulled,
and when additionally no name is given, only the raw log groups are
pulled. -/
theorem raw_sources_suppress_discovery
    (names : List String) (stackResources : List ResourceInformation)
    (filter_pattern : Option String) (tailing include_tracing : Bool)
    (start_time end_time : Option String) (cw_log_groups : List String)
    (output : Option String) (now : Nat) :
    ((do_cli names stackResources filter_pattern tailing include_tracing
        start_time end_time cw_log_groups output
        now).fetch_all_when_no_resource_name_given = true ↔
      cw_log_groups = []) ∧
    (cw_log_groups ≠ [] →
      (do_cli names stackResources filter_pattern tailing include_tracing
        start_time end_time cw_log_groups output now).pullerSources =
      (stackResources.filter (fun x => names.contains x.logicalName)).map
          PullSource.resource ++
        cw_log_groups.map PullSource.rawLogGroup) ∧
    (cw_log_groups = [] → names = [] →
      (do_cli names stackResources filter_pattern tailing include_tracing
        start_time end_time cw_log_groups output now).pullerSources =
      (stackResources.filter (fun x => x.supported)).map
        PullSource.resource) := by
  refine ⟨?_, ?_, ?_⟩
  · simp [do_cli]
  · intro h
    have hne : cw_log_groups.isEmpty = false := by simpa using h
    cases names with
    | nil =>
      simp [do_cli, hne, get_resource_information, puller_sources]
    | cons n ns =>
      simp [do_cli, hne, get_resource_information, puller_sources]
  · intro h1 h2
    subst h1
    subst h2
    simp [do_cli, get_resource_information, puller_sources]

/-- Witness for C4: with one supported auto-discoverable stack resource,
one raw log group and no names, only the raw log group is pulled; with no
raw log group the stack resource is auto-discovered. -/
theorem raw_sources_suppress_discovery_witness :
    (do_cli [] [⟨"Fn", "lg-fn", true⟩] none false false none none
      ["raw-group"] none 0).pullerSources =
      [PullSource.rawLogGroup "raw-group"] ∧
    (do_cli [] [⟨"Fn", "lg-fn", true⟩] none false false none none
      [] none 0).pullerSources =
      [PullSource.resource ⟨"Fn", "lg-fn", true⟩] := by
  constructor
  · rw [(raw_sources_suppress_discovery [] [⟨"Fn", "lg-fn", true⟩] none false
      false none none ["raw-group"] none 0).2.1 (by decide)]
    decide
  · rw [(raw_sources_suppress_discovery [] [⟨"Fn", "lg-fn", true⟩] none false
      false none none [] none 0).2.2 rfl rfl]
    decide

/-- Claim C5: a run whose configuration is structurally invalid (a logical
resource linked to multiple destination resources, or indirection that
prevents static resolution) fails before any puller starts: the exit code
is non-zero and no output event is produced. -/
theorem validation_fails_fast (c : RunConfig) (fetched : List (List LogEvent))
    (h : validateConfig c = false) :
    (runPipeline c fetched).1 ≠ 0 ∧ (runPipeline c fetched).2 = [] := by
  simp [runPipeline, h]

/-- Witness for C5: one source resource linked to two destinations is
rejected with exit code 1 and no output events. -/
theorem validation_fails_fast_witness :
    (runPipeline ⟨[("api", ["fnA", "fnB"])], false⟩
      [[⟨"s", 1, "m", "k"⟩]]).1 ≠ 0 ∧
    (runPipeline ⟨[("api", ["fnA", "fnB"])], false⟩
      [[⟨"s", 1, "m", "k"⟩]]).2 = [] :=
  validation_fails_fast _ _ (by decide)

/-- Claim C6: exactly one of the two execution modes runs: with the tail
flag set, the unbounded tail call is made with only the start time and the
end bound does not constrain it (the action is independent of the supplied
end time); otherwise the bounded load over the start-to-end window is
made. -/
theorem mode_selection
    (names : List String) (stackResources : List ResourceInformation)
    (filter_pattern : Option String) (include_tracing : Bool)
    (start_time end_time : Option String) (cw_log_groups : List String)
    (output : Option String) (now : Nat) :
    ((do_cli names stackResources filter_pattern true include_tracing
        start_time end_time cw_log_groups output now).action =
      PullerAction.tail (parse_time start_time) filter_pattern) ∧
    (∀ e1 e2 : Option String,
      (do_cli names stackResources filter_pattern true include_tracing
        start_time e1 cw_log_groups output now).action =
      (do_cli names stackResources filter_pattern true include_tracing
        start_time e2 cw_log_groups output now).action) ∧
    ((do_cli names stackResources filter_pattern false include_tracing
        start_time end_time cw_log_groups output now).action =
      PullerAction.loadTimePeriod (parse_time start_time)
        ((parse_time end_time).getD now) filter_pattern) := by
  refine ⟨?_, ?_, ?_⟩
  · simp [do_cli]
  · intro e1 e2
    simp [do_cli]
  · simp [do_cli]

/-- Claim C7: in window mode the end of the time window defaults to the
current wall-clock time when no end time is supplied, and a supplied end
time that parses is used as given. -/
theorem end_time_defaults_to_now
    (names : List String) (stackResources : List ResourceInformation)
    (filter_pattern : Option String) (tailing include_tracing : Bool)
    (start_time end_time : Option String) (cw_log_groups : List String)
    (output : Option String) (now : Nat) :
    ((do_cli names stackResources filter_pattern tailing include_tracing
        start_time none cw_log_groups output now).sanitized_end_time = now) ∧
    (∀ v : Nat, parse_time end_time = some v →
      (do_cli names stackResources filter_pattern tailing include_tracing
        start_time end_time cw_log_groups output now).sanitized_end_time
        = v) := by
  constructor
  · simp [do_cli, parse_time]
  · intro v hv
    simp [do_cli, hv]

/-- Witness for C7: absent end time yields the wall-clock value 99, a
supplied end time of 42 is used as given. -/
theorem end_time_defaults_to_now_witness :
    (do_cli [] [] none false false none none [] none
      99).sanitized_end_time = 99 ∧
    (do_cli [] [] none false false none (some "42") [] none
      99).sanitized_end_time = 42 :=
  ⟨(end_time_defaults_to_now [] [] none false false none none [] none 99).1,
   (end_time_defaults_to_now [] [] none false false none (some "42") [] none
     99).2 42 (by decide)⟩

/-- Claim C8: the filter pattern string reaches both puller construction
and the tail/load call unmodified, and an absent or empty filter means no
filtering. -/
theorem filter_pass_through
    (names : List String) (stackResources : List ResourceInformation)
    (filter_pattern : Option String) (tailing include_tracing : Bool)
    (start_time end_time : Option String) (cw_log_groups : List String)
    (output : Option String) (now : Nat) :
    ((do_cli names stackResources filter_pattern tailing include_tracing
        start_time end_time cw_log_groups output now).pullerFilter =
      filter_pattern) ∧
    ((do_cli names stackResources filter_pattern tailing include_tracing
        start_time end_time cw_log_groups output now).action.filterOf =
      filter_pattern) ∧
    (∀ msg : String, matchesFilter none msg = true) ∧
    (∀ msg : String, matchesFilter (some "") msg = true) := by
  refine ⟨?_, ?_, fun msg => rfl, fun msg => ?_⟩
  · simp [do_cli]
  · cases tailing <;> simp [do_cli, PullerAction.filterOf]
  · have h : "".isEmpty = true := (String.isEmpty_iff "").mpr rfl
    simp [matchesFilter, h]

/-- Claim C9: when no output-format selector is supplied the puller is
constructed with the plain-text output option; a supplied selector that
names a rendering mode yields the corresponding option. -/
theorem output_defaults_to_text
    (names : List String) (stackResources : List ResourceInformation)
    (filter_pattern : Option String) (tailing include_tracing : Bool)
    (start_time end_time : Option String) (cw_log_groups : List String)
    (now : Nat) :
    ((do_cli names stackResources filter_pattern tailing include_tracing
        start_time end_time cw_log_groups none now).pullerOutput =
      some OutputOption.text) ∧
    (∀ s : String, ∀ o : OutputOption, OutputOption.ofString s = some o →
      (do_cli names stackResources filter_pattern tailing include_tracing
        start_time end_time cw_log_groups (some s) now).pullerOutput =
      some o) := by
  constructor
  · simp [do_cli, pyTruthyStr]
  · intro s o hso
    have hne : s ≠ "" := by
      intro h
      rw [h] at hso
      simp [OutputOption.ofString] at hso
    have hs : s.isEmpty = false := by
      cases hs' : s.isEmpty
      · rfl
      · exact absurd ((String.isEmpty_iff s).mp hs') hne
    simp [do_cli, pyTruthyStr, hs, hso]

/-- Witness for C9: the selector "json" yields the structured output
option. -/
theorem output_defaults_to_text_witness :
    (do_cli [] [] none false false none none [] (some "json")
      0).pullerOutput = some OutputOption.json :=
  (output_defaults_to_text [] [] none false false none none [] 0).2
    "json" OutputOption.json (by decide)

/-- Claim C10: the informational hint that the command can be used without
the name parameter is printed if and only if the name list is non-empty
and has length at most one. -/
theorem hint_printed_iff
    (names : List String) (stackResources : List ResourceInformation)
    (filter_pattern : Option String) (tailing include_tracing : Bool)
    (start_time end_time : Option String) (cw_log_groups : List String)
    (output : Option String) (now : Nat) :
    (do_cli names stackResources filter_pattern tailing include_tracing
        start_time end_time cw_log_groups output now).hintPrinted = true ↔
      names ≠ [] ∧ names.length ≤ 1 := by
  simp [do_cli]

/-- Witness for C10: exactly one name prints the hint. -/
theorem hint_printed_iff_witness :
    (do_cli ["HelloWorldFunction"] [] none false false none none [] none
      0).hintPrinted = true :=
  (hint_printed_iff ["HelloWorldFunction"] [] none false false none none []
    none 0).mpr (by decide)

end SamLogs
